import Mathlib

/-!
Verification of the training/sampling orchestration in
`denoising-diffusion-with-deep-image-prior-initial` (`src/models.py`).

Shallow embedding conventions:
* Tensors are modelled as a shape `(b, c, h, w)` together with a total data
  function `ℕ → ℕ → ℕ → ℕ → ℝ`; every element-wise operation is applied to the
  whole data function, and reductions (mean / std / mse) sum over the shape.
* Randomness (`get_noise`, `torch.randn`, `random()`) is passed in as explicit
  arguments: a theorem quantifying over them holds for every random draw.
* Methods and schedules inherited from the external `GaussianDiffusion` base
  class (`q_sample`, `predict_v`, `p_sample`, `model_predictions`,
  `unnormalize`, `alphas_cumprod`, the loss-weight buffer) and the external
  optimizer (`Adam`) are fields of the embedding structures: the repository
  only calls them through their interface.
* Training-loop state (`Trainer`, `DIPTrainer`) is explicit state passing; the
  `while self.step < n` loops are embedded by structural recursion on the fuel
  `n - step`, re-checking the loop guard at every unfolding exactly as the
  source does.
-/

namespace DDPMDIP

/-! ## Module-level helpers from `src/models.py` -/

/-- `divisible_by(numer, denom)` from `src/models.py` line 31: `(numer % denom) == 0`. -/
def divisible_by (numer denom : ℕ) : Bool :=
  numer % denom == 0

/-- `num_to_groups(num, divisor)` from `src/models.py` lines 42-48:
`num // divisor` copies of `divisor`, then the remainder if positive. -/
def num_to_groups (num divisor : ℕ) : List ℕ :=
  let groups := num / divisor
  let remainder := num % divisor
  let arr := List.replicate groups divisor
  if 0 < remainder then arr ++ [remainder] else arr

/-! ## Diffusion `Trainer` (`src/models.py` lines 304-480)

The outer training loop is modelled as a state machine.  The per-batch loss
and its gradient are abstracted to rational surrogates indexed by the pull
position in the infinitely-cycling dataloader (`cycle(dl)`, line 366): pull
`i` yields the pair `(data, noise)` whose forward loss is `lossOf i` and whose
parameter gradient is `gradOf i`.  `loss.backward()` on the scaled loss
`loss / gradient_accumulate_every` accumulates `gradOf i / k` into the
gradient buffer; `opt.step()` consumes the accumulated gradient through the
abstract Adam updates `optUpdate` / `optStateUpd`.

The periodic block (lines 453-476) is special: at line 459 it evaluates
`self.ema.ema_model.sample(...)`, but `Trainer.__init__` never assigns
`self.ema`, so the first time the divisibility trigger fires the process
raises `AttributeError` before any sample grid or checkpoint is written.  The
embedding makes this explicit: `periodic` returns crash information (the
milestone and batch list computed on lines 457-458 before the failing
attribute access), and the loop result is `RunResult.crashed`. -/

/-- Checkpoint payload written by `Trainer.save` (lines 409-416):
`{step, model state dict, optimizer state dict}`. -/
structure TCkpt (μ ω : Type) where
  step : ℕ
  model : μ
  opt : ω

/-- Checkpoint file key: `model-{milestone}.pt` for an integer milestone
(`Sum.inl m`), or the `"best"` / `"latest"` files of best-and-latest mode
(`Sum.inr true` / `Sum.inr false`). -/
abbrev CkptKey : Type := ℕ ⊕ Bool

/-- Constructor-time configuration of `Trainer` (lines 305-328) that the
training loop reads.  `max_grad_norm` is stored by `__init__` (line 356) and
is modelled here because the source stores it; the loop never reads it. -/
structure TrainerCfg where
  train_batch_size : ℕ
  gradient_accumulate_every : ℕ
  train_num_steps : ℕ
  save_and_sample_every : ℕ
  num_samples : ℕ
  max_grad_norm : ℚ
  calculate_fid : Bool
  save_best_and_latest_only : Bool

/-- External collaborators of the `Trainer` loop: the diffusion model's
forward loss and its autograd gradient for the `i`-th pulled
`(image, noise)` pair, and the Adam optimizer updates.  `μ` is the type of
the model's parameter state dict, `ω` of the optimizer state dict. -/
structure TrainerModel (μ ω : Type) where
  lossOf : ℕ → ℚ
  gradOf : ℕ → ℚ
  optUpdate : μ → ℚ → μ
  optStateUpd : ω → ℚ → ω

/-- Mutable state of a `Trainer` instance. -/
structure TState (μ ω : Type) where
  step : ℕ
  pullCount : ℕ
  grad : ℚ
  modelSD : μ
  optSD : ω
  modelEval : Bool
  bestFid : ℚ
  files : CkptKey → Option (TCkpt μ ω)

/-- State after `Trainer.__init__`: `self.step = 0` (line 379), no
checkpoint files, model in training mode, `best_fid = 1e10` (line 404). -/
def initState {μ ω : Type} (m0 : μ) (o0 : ω) : TState μ ω :=
  { step := 0
    pullCount := 0
    grad := 0
    modelSD := m0
    optSD := o0
    modelEval := false
    bestFid := 10 ^ 10
    files := fun _ => none }

/-- `Trainer.save(milestone)` (lines 409-416): serialize
`{step, model, opt}` to the file keyed by `milestone`. -/
def Trainer_save {μ ω : Type} (milestone : CkptKey) (s : TState μ ω) : TState μ ω :=
  { s with files := Function.update s.files milestone (some ⟨s.step, s.modelSD, s.optSD⟩) }

/-- `Trainer.load(milestone)` (lines 418-424): read the checkpoint file and
restore the model state dict, the step counter and the optimizer state;
`torch.load` fails (`none`) when the file does not exist. -/
def Trainer_load {μ ω : Type} (milestone : CkptKey) (s : TState μ ω) : Option (TState μ ω) :=
  (s.files milestone).map fun d =>
    { s with modelSD := d.model, step := d.step, optSD := d.opt }

/-- Observable actions of one outer iteration of `Trainer.train`. -/
inductive TEvent where
  | pull (i : ℕ)
  | backwardE (g : ℚ)
  | optStepE (g : ℚ)
  | zeroGradE
  | modelEvalE
  deriving DecidableEq, Repr

/-- Inner gradient-accumulation loop (lines 435-444): `m` remaining inner
iterations out of `k = gradient_accumulate_every`.  Each iteration pulls the
next pair from the cycling dataloader, computes the forward loss, scales it
by `1 / k`, and `backward()` adds the scaled gradient to the buffer. -/
def accumLoop {μ ω : Type} (mdl : TrainerModel μ ω) (k : ℕ) :
    ℕ → TState μ ω → TState μ ω × List TEvent
  | 0, s => (s, [])
  | Nat.succ m, s =>
    let i := s.pullCount
    let g := mdl.gradOf i / (k : ℚ)
    let s' := { s with grad := s.grad + g, pullCount := s.pullCount + 1 }
    let r := accumLoop mdl k m s'
    (r.1, [TEvent.pull i, TEvent.backwardE g] ++ r.2)

/-- Lines 433-451 of one outer iteration: the inner accumulation loop, then
`opt.step()`, `opt.zero_grad()`, `self.step += 1`.  (No gradient clipping
appears anywhere in the source loop.) -/
def gradStep {μ ω : Type} (cfg : TrainerCfg) (mdl : TrainerModel μ ω) (s : TState μ ω) :
    TState μ ω × List TEvent :=
  let r := accumLoop mdl cfg.gradient_accumulate_every cfg.gradient_accumulate_every s
  let s1 := r.1
  let g := s1.grad
  let s2 := { s1 with modelSD := mdl.optUpdate s1.modelSD g,
                      optSD := mdl.optStateUpd s1.optSD g }
  let s3 := { s2 with grad := 0 }
  let s4 := { s3 with step := s3.step + 1 }
  (s4, r.2 ++ [TEvent.optStepE g, TEvent.zeroGradE])

/-- Values the periodic block computes (lines 457-458) before the failing
`self.ema` attribute access on line 459. -/
structure CrashInfo where
  milestone : ℕ
  batches : List ℕ
  deriving DecidableEq, Repr

/-- Periodic block of `Trainer.train` (lines 453-476).  The guard is the
source expression `self.step != 0 and divisible_by(self.step,
self.save_and_sample_every)`.  When it fires, the source switches the model
to evaluation mode, computes `milestone = step // save_and_sample_every` and
`batches = num_to_groups(num_samples, batch_size)`, and then evaluates
`self.ema.ema_model` — an attribute `__init__` never set — so execution
aborts with `AttributeError`; the sample grid, FID score and checkpoint
writes below line 459 are unreachable. -/
def periodic {μ ω : Type} (cfg : TrainerCfg) (s : TState μ ω) :
    TState μ ω × List TEvent × Option CrashInfo :=
  if s.step != 0 && divisible_by s.step cfg.save_and_sample_every then
    ({ s with modelEval := true },
     [TEvent.modelEvalE],
     some ⟨s.step / cfg.save_and_sample_every,
           num_to_groups cfg.num_samples cfg.train_batch_size⟩)
  else
    (s, [], none)

/-- Result of running `Trainer.train`: either the `while` loop finished, or
the periodic block crashed on the missing `self.ema` attribute. -/
inductive RunResult (μ ω : Type) where
  | done (s : TState μ ω) (tr : List TEvent)
  | crashed (s : TState μ ω) (tr : List TEvent) (ci : CrashInfo)

/-- The `while self.step < self.train_num_steps` loop (lines 431-478),
structurally recursing on fuel and re-checking the guard each iteration. -/
def trainGo {μ ω : Type} (cfg : TrainerCfg) (mdl : TrainerModel μ ω) :
    ℕ → TState μ ω → List TEvent → RunResult μ ω
  | 0, s, tr => RunResult.done s tr
  | Nat.succ n, s, tr =>
    if s.step < cfg.train_num_steps then
      let r1 := gradStep cfg mdl s
      let r2 := periodic cfg r1.1
      match r2.2.2 with
      | none => trainGo cfg mdl n r2.1 (tr ++ r1.2 ++ r2.2.1)
      | some ci => RunResult.crashed r2.1 (tr ++ r1.2 ++ r2.2.1) ci
    else
      RunResult.done s tr

/-- `Trainer.train()` (lines 426-480): run the loop from the current state.
Each iteration increases `step` by exactly one, so `train_num_steps - step`
is exactly enough fuel. -/
def Trainer_train {μ ω : Type} (cfg : TrainerCfg) (mdl : TrainerModel μ ω)
    (s : TState μ ω) : RunResult μ ω :=
  trainGo cfg mdl (cfg.train_num_steps - s.step) s []

/-! ## Tensors

A tensor is a shape `(b, c, h, w)` with a total data function; reductions sum
over index ranges determined by the shape.  `torch.std` uses its default
Bessel correction (divide by `numel - 1`). -/

structure Tensor where
  b : ℕ
  c : ℕ
  h : ℕ
  w : ℕ
  data : ℕ → ℕ → ℕ → ℕ → ℝ

namespace Tensor

/-- Number of elements of the tensor. -/
def numel (t : Tensor) : ℕ := t.b * t.c * t.h * t.w

/-- Sum of a function of the entries over the whole shape. -/
noncomputable def sumAll (t : Tensor) (f : ℝ → ℝ) : ℝ :=
  ∑ i in Finset.range t.b, ∑ j in Finset.range t.c,
    ∑ k in Finset.range t.h, ∑ l in Finset.range t.w, f (t.data i j k l)

/-- `torch.mean(x)`: global mean over every batch, channel and spatial
position. -/
noncomputable def gmean (t : Tensor) : ℝ :=
  t.sumAll id / (t.numel : ℝ)

/-- `torch.std(x)`: global standard deviation over the whole tensor, with
the default Bessel correction (denominator `numel - 1`). -/
noncomputable def gstd (t : Tensor) : ℝ :=
  Real.sqrt (t.sumAll (fun x => (x - t.gmean) ^ 2) / ((t.numel - 1 : ℕ) : ℝ))

/-- Element-wise subtraction `x - y` (shapes agree in every source use; the
result carries the left operand's shape). -/
def sub (x y : Tensor) : Tensor :=
  ⟨x.b, x.c, x.h, x.w, fun i j k l => x.data i j k l - y.data i j k l⟩

/-- Element-wise addition `x + y`. -/
def add (x y : Tensor) : Tensor :=
  ⟨x.b, x.c, x.h, x.w, fun i j k l => x.data i j k l + y.data i j k l⟩

/-- Scalar multiplication `a * x`. -/
def smul (a : ℝ) (x : Tensor) : Tensor :=
  ⟨x.b, x.c, x.h, x.w, fun i j k l => a * x.data i j k l⟩

/-- `t.expand(batch, -1, -1, -1)`: broadcast the singleton batch dimension of
the DIP input tensor to `batch` copies. -/
def expandB (batch : ℕ) (t : Tensor) : Tensor :=
  ⟨batch, t.c, t.h, t.w, fun _ j k l => t.data 0 j k l⟩

/-- `F.mse_loss(x, y)` with default `reduction='mean'`: global mean of the
squared differences. -/
noncomputable def gMSE (x y : Tensor) : ℝ :=
  (sub x y).sumAll (fun d => d ^ 2) / ((sub x y).numel : ℝ)

/-- Per-sample mean of squared differences: `F.mse_loss(x, y,
reduction='none')` followed by `reduce(loss, 'b ... -> b', 'mean')` at batch
index `i`. -/
noncomputable def sampleMSE (x y : Tensor) (i : ℕ) : ℝ :=
  (∑ j in Finset.range x.c, ∑ k in Finset.range x.h, ∑ l in Finset.range x.w,
    (x.data i j k l - y.data i j k l) ^ 2) / ((x.c * x.h * x.w : ℕ) : ℝ)

end Tensor

/-- `normalize_norm_dist(x)` from `src/models.py` lines 60-61:
`(x - torch.mean(x)) / torch.std(x)` — both statistics global over the whole
tensor, and the division is unconditional (no guard for zero variance). -/
noncomputable def normalize_norm_dist (x : Tensor) : Tensor :=
  ⟨x.b, x.c, x.h, x.w, fun i j k l => (x.data i j k l - x.gmean) / x.gstd⟩

/-- Modelled from the spec: per-channel normalization (statistics taken over
batch and spatial positions of each channel separately).  This is NOT what
the source computes; it exists only to witness that the source's global
normalization differs from a per-channel one. -/
noncomputable def normalizePerChannelSpec (x : Tensor) : Tensor :=
  let chMean := fun j => (∑ i in Finset.range x.b, ∑ k in Finset.range x.h,
    ∑ l in Finset.range x.w, x.data i j k l) / ((x.b * x.h * x.w : ℕ) : ℝ)
  let chStd := fun j => Real.sqrt ((∑ i in Finset.range x.b,
    ∑ k in Finset.range x.h, ∑ l in Finset.range x.w,
      (x.data i j k l - chMean j) ^ 2) / ((x.b * x.h * x.w - 1 : ℕ) : ℝ))
  ⟨x.b, x.c, x.h, x.w, fun i j k l => (x.data i j k l - chMean j) / chStd j⟩

/-! ## `GaussianDiffusionWithDeepImagePrior` (`src/models.py` lines 90-262)

The base-class `GaussianDiffusion` machinery the subclass calls — `q_sample`,
`predict_v`, `model_predictions`, `p_sample`, `unnormalize`, the
`alphas_cumprod` and `loss_weight` schedules and the denoising network
`model` — is external to the repository and appears as fields.  The
`loss_weight` buffer has length `num_timesteps`, so the Python index `[-1]`
reads entry `num_timesteps - 1`.  The base constructor restricts `objective`
to the three known tags, embedded as an inductive type. -/

/-- The diffusion objective tag (`'pred_noise'`, `'pred_x0'`, `'pred_v'`). -/
inductive Objective where
  | pred_noise
  | pred_x0
  | pred_v
  deriving DecidableEq, Repr

/-- State of a `GaussianDiffusionWithDeepImagePrior` instance.  `dip_model`
is the prior network stored by `__init__` (line 124): a single retained
`nn.Module`, invoked as a function of its input tensor.  Batched timesteps
are functions `ℕ → ℕ` from batch index to timestep. -/
structure Diffusion where
  num_timesteps : ℕ
  sampling_timesteps : ℕ
  objective : Objective
  self_condition : Bool
  offset_noise_strength : ℝ
  ddim_sampling_eta : ℝ
  loss_weight : ℕ → ℝ
  alphas_cumprod : ℕ → ℝ
  dip_model : Tensor → Tensor
  dip_input_depth : ℕ
  model : Tensor → (ℕ → ℕ) → Option Tensor → Tensor
  q_sample : Tensor → (ℕ → ℕ) → Tensor → Tensor
  predict_v : Tensor → (ℕ → ℕ) → Tensor → Tensor
  pred_x_start_of : Tensor → (ℕ → ℕ) → Tensor
  p_sample : Tensor → ℕ → Option Tensor → Tensor × Tensor
  model_predictions : Tensor → ℤ → Option Tensor → Tensor × Tensor
  unnormalize : Tensor → Tensor

namespace Diffusion

/-- Offset-noise addition (lines 214-216): broadcast
`offset_noise_strength * rearrange(offset_noise, 'b c -> b c 1 1')` onto the
noise tensor; `offR` models the `torch.randn(x_start.shape[:2])` draw. -/
def addOffset (n : Tensor) (ons : ℝ) (offR : Tensor) : Tensor :=
  ⟨n.b, n.c, n.h, n.w, fun i j k l => n.data i j k l + ons * offR.data i j 0 0⟩

/-- `p_losses` (lines 200-254).  `r` models the `get_noise(dip_input_depth,
'noise', (h, w))` draw, `coin` the `random() < 0.5` self-conditioning coin,
`offR` the offset-noise draw. -/
noncomputable def p_losses (D : Diffusion) (x_start : Tensor) (t : ℕ → ℕ)
    (noiseArg : Option Tensor) (offsetArg : Option ℝ)
    (r : Tensor) (coin : Bool) (offR : Tensor) : ℝ :=
  let b := x_start.b
  let dip_input := Tensor.expandB b r
  let dip_out := D.dip_model dip_input
  let noise0 := noiseArg.getD (normalize_norm_dist (Tensor.sub dip_out x_start))
  let ons := offsetArg.getD D.offset_noise_strength
  let noise := if 0 < ons then addOffset noise0 ons offR else noise0
  let x := D.q_sample x_start t noise
  let x_self_cond := if D.self_condition && coin then some (D.pred_x_start_of x t) else none
  let model_out := D.model x t x_self_cond
  let target :=
    match D.objective with
    | Objective.pred_noise => noise
    | Objective.pred_x0 => x_start
    | Objective.pred_v => D.predict_v x_start t noise
  let loss := (∑ i in Finset.range b,
    Tensor.sampleMSE model_out target i * D.loss_weight (t i)) / (b : ℝ)
  let dip_loss := Tensor.gMSE dip_out x_start * D.loss_weight (D.num_timesteps - 1)
  loss + dip_loss

/-- Reverse ancestral loop of `p_sample_loop` (lines 139-142), carrying the
current image, the last predicted `x_start` for self-conditioning, and the
accumulated image list. -/
def pSampleAux (D : Diffusion) :
    List ℕ → Tensor → Option Tensor → List Tensor → Tensor × List Tensor
  | [], img, _, imgs => (img, imgs)
  | t :: ts, img, x_start, imgs =>
    let self_cond := if D.self_condition then x_start else none
    let r := D.p_sample img t self_cond
    pSampleAux D ts r.1 (some r.2) (imgs ++ [r.1])

/-- `p_sample_loop(shape)` (lines 127-147).  The initial image is produced by
running the retained `self.dip_model` on the freshly drawn random input `r`
(the `get_noise` draw of spatial shape `shape[-2:]`) expanded to the batch,
then normalizing.  `torch.stack(imgs, dim=1)` is modelled as the list of
per-timestep tensors; `return_all_timesteps = false` yields the singleton
final image.  `unnormalize` is applied to the returned tensor(s). -/
noncomputable def p_sample_loop (D : Diffusion) (shape : ℕ × ℕ × ℕ × ℕ) (r : Tensor)
    (return_all_timesteps : Bool) : List Tensor :=
  let batch := shape.1
  let dip_input := Tensor.expandB batch r
  let img := normalize_norm_dist (D.dip_model dip_input)
  let imgs := [img]
  let res := pSampleAux D ((List.range D.num_timesteps).reverse) img none imgs
  if return_all_timesteps then res.2.map D.unnormalize else [D.unnormalize res.1]

/-- Truncation toward zero, the semantics of `torch.Tensor.int()` applied to
the `linspace` values on line 154. -/
def ratTrunc (q : ℚ) : ℤ :=
  if q < 0 then -⌊-q⌋ else ⌊q⌋

/-- Lines 153-155: `times = torch.linspace(-1, total_timesteps - 1,
sampling_timesteps + 1)` truncated to ints, reversed, and zipped into
consecutive pairs `[(T-1, T-2), ..., (0, -1)]`. -/
def ddimTimePairs (total sampling : ℕ) : List (ℤ × ℤ) :=
  let times := (((List.range (sampling + 1)).map
    (fun j => ratTrunc (-1 + (j : ℚ) * (total : ℚ) / (sampling : ℚ)))).reverse)
  times.zip times.tail

/-- DDIM reverse loop (lines 165-187); `pr` models the per-iteration
`torch.randn_like(img)` draws. -/
noncomputable def ddimAux (D : Diffusion) (pr : ℕ → Tensor) :
    List (ℤ × ℤ) → ℕ → Tensor → Option Tensor → List Tensor → Tensor × List Tensor
  | [], _, img, _, imgs => (img, imgs)
  | (time, time_next) :: rest, idx, img, x_start, imgs =>
    let self_cond := if D.self_condition then x_start else none
    let pred := D.model_predictions img time self_cond
    let pred_noise := pred.1
    let x_start' := pred.2
    if time_next < 0 then
      ddimAux D pr rest (idx + 1) x_start' (some x_start') (imgs ++ [x_start'])
    else
      let alpha := D.alphas_cumprod time.toNat
      let alpha_next := D.alphas_cumprod time_next.toNat
      let sigma := D.ddim_sampling_eta *
        Real.sqrt ((1 - alpha / alpha_next) * (1 - alpha_next) / (1 - alpha))
      let cc := Real.sqrt (1 - alpha_next - sigma ^ 2)
      let noise := pr idx
      let img' := Tensor.add (Tensor.add (Tensor.smul (Real.sqrt alpha_next) x_start')
        (Tensor.smul cc pred_noise)) (Tensor.smul sigma noise)
      ddimAux D pr rest (idx + 1) img' (some x_start') (imgs ++ [img'])

/-- `ddim_sample(shape)` (lines 149-192).  As in `p_sample_loop`, the initial
image is the normalized output of the retained `self.dip_model` on the fresh
random input `r` expanded to the batch. -/
noncomputable def ddim_sample (D : Diffusion) (shape : ℕ × ℕ × ℕ × ℕ) (r : Tensor)
    (pr : ℕ → Tensor) (return_all_timesteps : Bool) : List Tensor :=
  let batch := shape.1
  let time_pairs := ddimTimePairs D.num_timesteps D.sampling_timesteps
  let dip_input := Tensor.expandB batch r
  let img := normalize_norm_dist (D.dip_model dip_input)
  let res := ddimAux D pr time_pairs 0 img none [img]
  if return_all_timesteps then res.2.map D.unnormalize else [D.unnormalize res.1]

end Diffusion

/-! ## `DIPTrainer` (`src/models.py` lines 484-592)

`α` is the prior network's parameter state, `ι` the type of its fixed random
input.  The network itself is the function `modelFn : α → ι → Tensor`; one
`loss.backward(); opt.step()` cycle is the abstract parameter update
`stepFn` (the loss is `F.mse_loss(modelFn params input, train_img)` and Adam
is external, so the net effect on the parameters is a function of the
current parameters). -/

/-- Fixed collaborators of a `DIPTrainer`: the network, the optimizer update
and the target image loaded at construction. -/
structure DIPModel (α ι : Type) where
  modelFn : α → ι → Tensor
  stepFn : α → α
  train_img : Tensor

/-- Checkpoint payload written by `DIPTrainer.save` (lines 526-532):
`{step, model state dict, model_input}`. -/
structure DIPCkpt (α ι : Type) where
  step : ℕ
  model : α
  model_input : ι

/-- Mutable state of a `DIPTrainer`: step counter, network parameters, the
fixed input tensor, checkpoint files keyed by milestone, and the
`dip_{step}.png` images written by `save_image` keyed by step. -/
structure DIPState (α ι : Type) where
  step : ℕ
  params : α
  model_input : ι
  files : ℕ → Option (DIPCkpt α ι)
  images : ℕ → Option Unit

/-- `DIPTrainer.save(milestone)` (lines 526-532). -/
def DIPTrainer_save {α ι : Type} (milestone : ℕ) (st : DIPState α ι) : DIPState α ι :=
  { st with files :=
      Function.update st.files milestone (some ⟨st.step, st.params, st.model_input⟩) }

/-- `DIPTrainer.load(milestone)` (lines 534-538): restore `step`, the model
parameters and the fixed input; fails when the file is missing. -/
def DIPTrainer_load {α ι : Type} (milestone : ℕ) (st : DIPState α ι) :
    Option (DIPState α ι) :=
  (st.files milestone).map fun d =>
    { st with step := d.step, params := d.model, model_input := d.model_input }

/-- `DIPTrainer.predict()` (lines 540-543): run the network on the fixed
input (evaluation mode has no observable effect in the embedding). -/
def DIPTrainer_predict {α ι : Type} (M : DIPModel α ι) (st : DIPState α ι) : Tensor :=
  M.modelFn st.params st.model_input

/-- `DIPTrainer.generate_noise()` (lines 557-560):
`normalize_norm_dist(predict() - train_img)`. -/
noncomputable def DIPTrainer_generate_noise {α ι : Type} (M : DIPModel α ι)
    (st : DIPState α ι) : Tensor :=
  normalize_norm_dist (Tensor.sub (DIPTrainer_predict M st) M.train_img)

/-- One iteration of the `DIPTrainer.train` loop body (lines 577-592):
forward on the fixed input, MSE loss against the target, backward, one
optimizer step (together `stepFn`), `step += 1`, then the periodic
`save_image` (`step % predict_every == 0`) and checkpoint save
(`step % save_every == 0`, milestone `step // save_every`). -/
def dipIter {α ι : Type} (M : DIPModel α ι) (pe se : ℕ) (st : DIPState α ι) :
    DIPState α ι :=
  let st1 := { st with params := M.stepFn st.params }
  let st2 := { st1 with step := st1.step + 1 }
  let st3 := if st2.step % pe == 0
    then { st2 with images := Function.update st2.images st2.step (some ()) }
    else st2
  if st3.step % se == 0 then DIPTrainer_save (st3.step / se) st3 else st3

/-- The `while self.step < train_num_steps` loop of `DIPTrainer.train`,
structurally recursing on fuel and re-checking the guard. -/
def dipGo {α ι : Type} (M : DIPModel α ι) (n pe se : ℕ) :
    ℕ → DIPState α ι → DIPState α ι
  | 0, st => st
  | Nat.succ f, st =>
    if st.step < n then dipGo M n pe se f (dipIter M pe se st) else st

/-- `DIPTrainer.train(train_num_steps, predict_every, save_every)`
(lines 573-592): run the loop from the current state.  Each iteration
increases `step` by one, so `train_num_steps - step` is exactly enough
fuel. -/
def DIPTrainer_train {α ι : Type} (M : DIPModel α ι) (st : DIPState α ι)
    (train_num_steps pe se : ℕ) : DIPState α ι :=
  dipGo M train_num_steps pe se (train_num_steps - st.step) st

/-! ## Claim C10: `num_to_groups` -/

/-- Claim C10: for every `num ≥ 0` and `divisor ≥ 1`, `num_to_groups num
divisor` is `num / divisor` groups equal to `divisor` followed by one group
holding the positive remainder when `num % divisor > 0`; no group exceeds
`divisor` and the groups sum to `num`; `num_to_groups 50000 16` is 3125
groups of 16 and `num_to_groups 17 16 = [16, 1]`. -/
theorem claim_C10 (num divisor : ℕ) (hd : 1 ≤ divisor) :
    num_to_groups num divisor
      = List.replicate (num / divisor) divisor
        ++ (if 0 < num % divisor then [num % divisor] else [])
    ∧ (∀ g ∈ num_to_groups num divisor, g ≤ divisor)
    ∧ (num_to_groups num divisor).sum = num
    ∧ num_to_groups 50000 16 = List.replicate 3125 16
    ∧ num_to_groups 17 16 = [16, 1] := by
  have hform : num_to_groups num divisor
      = List.replicate (num / divisor) divisor
        ++ (if 0 < num % divisor then [num % divisor] else []) := by
    unfold num_to_groups
    split <;> simp <;> omega
  refine ⟨hform, ?_, ?_, ?_, by decide⟩
  · intro g hg
    rw [hform] at hg
    rcases List.mem_append.mp hg with h | h
    · exact le_of_eq (List.eq_of_mem_replicate h)
    · by_cases hr : 0 < num % divisor
      · rw [if_pos hr] at h
        simp only [List.mem_singleton] at h
        exact h ▸ le_of_lt (Nat.mod_lt _ hd)
      · rw [if_neg hr] at h
        exact absurd h (List.not_mem_nil g)
  · have hdm := Nat.div_add_mod num divisor
    rw [hform]
    by_cases hr : 0 < num % divisor
    · rw [if_pos hr]
      simp only [List.sum_append, List.sum_replicate, smul_eq_mul,
        List.sum_cons, List.sum_nil]
      rw [mul_comm]
      omega
    · rw [if_neg hr]
      simp only [List.sum_append, List.sum_replicate, smul_eq_mul,
        List.sum_nil, add_zero]
      rw [mul_comm]
      omega
  · unfold num_to_groups
    norm_num

/-- Witness for C10: the hypothesis `1 ≤ divisor` holds at the concrete
input `num_to_groups 17 16`, and the conclusion follows by the theorem. -/
theorem claim_C10_witness : 1 ≤ 16 ∧ num_to_groups 17 16 = [16, 1] :=
  ⟨by decide, (claim_C10 17 16 (by decide)).2.2.2.2⟩

/-! ## Claim C7: divisibility trigger of the periodic block -/

/-- Claim C7: in the training loop's periodic block, the periodic actions
trigger if and only if the step counter is a nonzero exact multiple of
`save_and_sample_every`, the computed milestone is `step /
save_and_sample_every`, and with the interval 1000 the guard accepts 1000
and 2000 and rejects 0 and 999. -/
theorem claim_C7 {μ ω : Type} (cfg : TrainerCfg) (s : TState μ ω)
    (hE : 1 ≤ cfg.save_and_sample_every) :
    ((periodic cfg s).2.2.isSome
      ↔ s.step ≠ 0 ∧ cfg.save_and_sample_every ∣ s.step)
    ∧ (∀ ci, (periodic cfg s).2.2 = some ci
        → ci.milestone = s.step / cfg.save_and_sample_every)
    ∧ ((1000 != 0 && divisible_by 1000 1000) = true)
    ∧ ((2000 != 0 && divisible_by 2000 1000) = true)
    ∧ ((0 != 0 && divisible_by 0 1000) = false)
    ∧ ((999 != 0 && divisible_by 999 1000) = false) := by
  have hdvd : cfg.save_and_sample_every ∣ s.step ↔
      s.step % cfg.save_and_sample_every = 0 :=
    Nat.dvd_iff_mod_eq_zero
  by_cases hcond : (s.step != 0 && divisible_by s.step cfg.save_and_sample_every) = true
  · have hper : periodic cfg s
        = ({ s with modelEval := true }, [TEvent.modelEvalE],
           some ⟨s.step / cfg.save_and_sample_every,
                 num_to_groups cfg.num_samples cfg.train_batch_size⟩) := by
      unfold periodic
      rw [if_pos hcond]
    rw [hper]
    simp only [Bool.and_eq_true, bne_iff_ne, ne_eq, divisible_by, beq_iff_eq] at hcond
    refine ⟨?_, ?_, by decide, by decide, by decide, by decide⟩
    · simp only [Option.isSome_some, true_iff]
      exact ⟨hcond.1, hdvd.mpr hcond.2⟩
    · intro ci hci
      cases hci
      rfl
  · have hper : periodic cfg s = (s, [], none) := by
      unfold periodic
      rw [if_neg hcond]
    rw [hper]
    refine ⟨?_, ?_, by decide, by decide, by decide, by decide⟩
    · simp only [Option.isSome_none, Bool.false_eq_true, false_iff]
      rintro ⟨h1, h2⟩
      exact hcond (by simp [divisible_by, h1, hdvd.mp h2])
    · intro ci hci
      cases hci

/-- Witness for C7 at a concrete interval and state. -/
def claimC7cfg : TrainerCfg :=
  { train_batch_size := 16, gradient_accumulate_every := 1, train_num_steps := 100000,
    save_and_sample_every := 1000, num_samples := 25, max_grad_norm := 1,
    calculate_fid := true, save_best_and_latest_only := false }

/-- Concrete trainer state at step 2000 for the C7 witness. -/
def claimC7state : TState Unit Unit := { initState () () with step := 2000 }

/-- Witness for C7: the hypothesis holds at the concrete configuration with
interval 1000 and the conclusion follows by the theorem. -/
theorem claim_C7_witness :
    1 ≤ claimC7cfg.save_and_sample_every
    ∧ ((periodic claimC7cfg claimC7state).2.2.isSome
        ↔ claimC7state.step ≠ 0 ∧ claimC7cfg.save_and_sample_every ∣ claimC7state.step) :=
  ⟨by decide, (claim_C7 claimC7cfg claimC7state (by decide)).1⟩

/-! ## Claim C8: checkpoint round-trip -/

/-- Claim C8: for both the diffusion `Trainer` and the `DIPTrainer`, saving
a checkpoint at milestone `m` and then loading milestone `m` — even after
the live step counter, parameters and optimizer state (resp. fixed input)
have been mutated arbitrarily in the meantime — restores the step counter,
the model parameters, and the optimizer state (resp. the fixed input
tensor) to exactly their saved values. -/
theorem claim_C8 :
    (∀ (μ ω : Type) (s : TState μ ω) (k : CkptKey) (a pc : ℕ) (g bf : ℚ)
        (x : μ) (y : ω) (me : Bool),
      ∃ s', Trainer_load k ⟨a, pc, g, x, y, me, bf, (Trainer_save k s).files⟩ = some s'
        ∧ s'.step = s.step ∧ s'.modelSD = s.modelSD ∧ s'.optSD = s.optSD)
    ∧ (∀ (α ι : Type) (st : DIPState α ι) (m a : ℕ) (x : α) (inp : ι)
        (im : ℕ → Option Unit),
      ∃ st', DIPTrainer_load m ⟨a, x, inp, (DIPTrainer_save m st).files, im⟩ = some st'
        ∧ st'.step = st.step ∧ st'.params = st.params ∧ st'.model_input = st.model_input) := by
  constructor
  · intro μ ω s k a pc g bf x y me
    refine ⟨⟨s.step, pc, g, s.modelSD, s.optSD, me, bf, (Trainer_save k s).files⟩, ?_, rfl, rfl, rfl⟩
    simp [Trainer_load, Trainer_save, Function.update_same]
  · intro α ι st m a x inp im
    refine ⟨⟨st.step, st.params, st.model_input, (DIPTrainer_save m st).files, im⟩, ?_, rfl, rfl, rfl⟩
    simp [DIPTrainer_load, DIPTrainer_save, Function.update_same]

/-! ## Claim C5: one outer training iteration -/

/-- The gradient the optimizer step consumes: whatever was in the buffer
plus the `gradient_accumulate_every` scaled per-pull contributions. -/
def accGrad {μ ω : Type} (cfg : TrainerCfg) (mdl : TrainerModel μ ω)
    (s : TState μ ω) : ℚ :=
  s.grad + ∑ j in Finset.range cfg.gradient_accumulate_every,
    mdl.gradOf (s.pullCount + j) / (cfg.gradient_accumulate_every : ℚ)

/-- Closed form of the inner accumulation loop. -/
lemma accumLoop_spec {μ ω : Type} (mdl : TrainerModel μ ω) (k : ℕ) :
    ∀ (m : ℕ) (s : TState μ ω),
      accumLoop mdl k m s
        = ({ s with
              pullCount := s.pullCount + m,
              grad := s.grad
                + ∑ j in Finset.range m, mdl.gradOf (s.pullCount + j) / (k : ℚ) },
           (List.range m).flatMap fun j =>
             [TEvent.pull (s.pullCount + j),
              TEvent.backwardE (mdl.gradOf (s.pullCount + j) / (k : ℚ))]) := by
  intro m
  induction m with
  | zero =>
    intro s
    simp [accumLoop]
  | succ m ih =>
    intro s
    have hshift : ∀ j : ℕ, s.pullCount + 1 + j = s.pullCount + (j + 1) := by
      intro j
      omega
    simp only [accumLoop, ih, Prod.mk.injEq]
    constructor
    · simp only [hshift, TState.mk.injEq]
      rw [Finset.sum_range_succ']
      simp only [add_zero]
      refine ⟨trivial, trivial, by ring, trivial, trivial, trivial, trivial, trivial⟩
    · rw [List.range_succ_eq_map, List.flatMap_cons, List.flatMap_map]
      simp [hshift]

/-- Closed form of lines 433-451 (inner loop, `opt.step()`,
`opt.zero_grad()`, `self.step += 1`). -/
lemma gradStep_spec {μ ω : Type} (cfg : TrainerCfg) (mdl : TrainerModel μ ω)
    (s : TState μ ω) :
    gradStep cfg mdl s
      = ({ s with
            step := s.step + 1,
            pullCount := s.pullCount + cfg.gradient_accumulate_every,
            grad := 0,
            modelSD := mdl.optUpdate s.modelSD (accGrad cfg mdl s),
            optSD := mdl.optStateUpd s.optSD (accGrad cfg mdl s) },
         ((List.range cfg.gradient_accumulate_every).flatMap fun j =>
            [TEvent.pull (s.pullCount + j),
             TEvent.backwardE (mdl.gradOf (s.pullCount + j)
               / (cfg.gradient_accumulate_every : ℚ))])
           ++ [TEvent.optStepE (accGrad cfg mdl s), TEvent.zeroGradE]) := by
  unfold gradStep
  rw [accumLoop_spec]
  rfl

/-- Claim C5 (amended): each outer iteration pulls exactly
`gradient_accumulate_every` consecutive pairs from the cycling data source,
scales every per-pull gradient contribution by
`1 / gradient_accumulate_every`, applies exactly one optimizer step on the
accumulated gradient, zeroes the gradient buffer, increments the step
counter by exactly one, and leaves checkpoint files untouched; the stored
`max_grad_norm` is never read (the iteration is unchanged under arbitrary
reconfiguration of it), i.e. no gradient clipping happens. -/
theorem claim_C5_amended {μ ω : Type} (cfg : TrainerCfg) (mdl : TrainerModel μ ω)
    (s : TState μ ω) :
    (gradStep cfg mdl s).2
      = ((List.range cfg.gradient_accumulate_every).flatMap fun j =>
          [TEvent.pull (s.pullCount + j),
           TEvent.backwardE (mdl.gradOf (s.pullCount + j)
             / (cfg.gradient_accumulate_every : ℚ))])
        ++ [TEvent.optStepE (accGrad cfg mdl s), TEvent.zeroGradE]
    ∧ (gradStep cfg mdl s).1.step = s.step + 1
    ∧ (gradStep cfg mdl s).1.grad = 0
    ∧ (gradStep cfg mdl s).1.pullCount = s.pullCount + cfg.gradient_accumulate_every
    ∧ (gradStep cfg mdl s).1.modelSD = mdl.optUpdate s.modelSD (accGrad cfg mdl s)
    ∧ (gradStep cfg mdl s).1.optSD = mdl.optStateUpd s.optSD (accGrad cfg mdl s)
    ∧ (gradStep cfg mdl s).1.files = s.files
    ∧ (∀ mgn : ℚ, gradStep { cfg with max_grad_norm := mgn } mdl s = gradStep cfg mdl s) := by
  refine ⟨?_, ?_, ?_, ?_, ?_, ?_, ?_, fun _ => rfl⟩ <;> rw [gradStep_spec]

/-- Concrete configuration for the C5 counterexample: `max_grad_norm = 1`
is configured (the source default). -/
def claimC5cfg : TrainerCfg :=
  { train_batch_size := 16, gradient_accumulate_every := 1, train_num_steps := 1,
    save_and_sample_every := 1000, num_samples := 25, max_grad_norm := 1,
    calculate_fid := true, save_best_and_latest_only := false }

/-- Concrete collaborators for the C5 counterexample: the pulled batch has
gradient 5. -/
def claimC5mdl : TrainerModel Unit Unit :=
  { lossOf := fun _ => 5, gradOf := fun _ => 5,
    optUpdate := fun _ _ => (), optStateUpd := fun _ _ => () }

/-- Counterexample to claim C5 as stated: with `max_grad_norm = 1`
configured, the single optimizer step of the outer iteration consumes the
raw accumulated gradient `5`, whose norm exceeds the configured max-norm —
so gradients are not "clipped per the configured max-norm" as the claim
asserts; no clipping happens anywhere in the loop. -/
theorem claim_C5_counterexample :
    claimC5cfg.max_grad_norm = 1
    ∧ (gradStep claimC5cfg claimC5mdl (initState () ())).2
        = [TEvent.pull 0, TEvent.backwardE 5, TEvent.optStepE 5, TEvent.zeroGradE]
    ∧ ¬(|(5 : ℚ)| ≤ claimC5cfg.max_grad_norm) := by
  refine ⟨rfl, ?_, ?_⟩
  · rw [gradStep_spec]
    simp only [accGrad, claimC5cfg, claimC5mdl, initState, Finset.sum_range_one,
      Nat.cast_one, div_one, zero_add, Nat.add_zero]
    rfl
  · show ¬(|(5 : ℚ)| ≤ 1)
    rw [abs_of_pos (by norm_num)]
    norm_num

/-! ## Claim C2: running the orchestrator to the first milestone -/

/-- The fired periodic block, up to the failing `self.ema` access. -/
lemma periodic_fire {μ ω : Type} (cfg : TrainerCfg) (s : TState μ ω)
    (h1 : s.step ≠ 0) (h2 : s.step % cfg.save_and_sample_every = 0) :
    periodic cfg s
      = ({ s with modelEval := true }, [TEvent.modelEvalE],
         some ⟨s.step / cfg.save_and_sample_every,
               num_to_groups cfg.num_samples cfg.train_batch_size⟩) := by
  unfold periodic
  rw [if_pos]
  simp [divisible_by, h1, h2]

/-- The periodic block when the divisibility guard rejects. -/
lemma periodic_skip {μ ω : Type} (cfg : TrainerCfg) (s : TState μ ω)
    (h : ¬(s.step ≠ 0 ∧ s.step % cfg.save_and_sample_every = 0)) :
    periodic cfg s = (s, [], none) := by
  unfold periodic
  rw [if_neg]
  intro hc
  simp only [Bool.and_eq_true, bne_iff_ne, ne_eq, divisible_by, beq_iff_eq] at hc
  exact h hc

/-- Running the loop with `n` steps left before `train_num_steps =
save_and_sample_every` crashes on the missing `self.ema` attribute exactly
when the counter reaches the interval, with no checkpoint file written. -/
lemma trainGo_crash {μ ω : Type} (cfg : TrainerCfg) (mdl : TrainerModel μ ω)
    (hE : 1 ≤ cfg.save_and_sample_every)
    (hT : cfg.train_num_steps = cfg.save_and_sample_every) :
    ∀ (n : ℕ) (s : TState μ ω) (tr : List TEvent),
      s.step + n = cfg.train_num_steps → 1 ≤ n →
      ∃ s' tr' ci, trainGo cfg mdl n s tr = RunResult.crashed s' tr' ci
        ∧ s'.step = cfg.save_and_sample_every
        ∧ s'.files = s.files
        ∧ s'.modelEval = true
        ∧ ci.milestone = 1 := by
  intro n
  induction n with
  | zero =>
    intro s tr _ h1
    omega
  | succ m ih =>
    intro s tr hsum _
    have hlt : s.step < cfg.train_num_steps := by omega
    have hstep1 : (gradStep cfg mdl s).1.step = s.step + 1 := by rw [gradStep_spec]
    have hfiles1 : (gradStep cfg mdl s).1.files = s.files := by rw [gradStep_spec]
    simp only [trainGo, if_pos hlt]
    by_cases hm : m = 0
    · subst hm
      have hend : (gradStep cfg mdl s).1.step = cfg.save_and_sample_every := by omega
      have hfire := periodic_fire cfg (gradStep cfg mdl s).1
        (by omega) (by rw [hend, Nat.mod_self])
      rw [hfire]
      refine ⟨_, _, _, rfl, ?_, ?_, rfl, ?_⟩
      · exact hend
      · exact hfiles1
      · show (gradStep cfg mdl s).1.step / cfg.save_and_sample_every = 1
        rw [hend, Nat.div_self (by omega)]
    · have hmid : (gradStep cfg mdl s).1.step < cfg.save_and_sample_every := by omega
      have hskip := periodic_skip cfg (gradStep cfg mdl s).1
        (by
          rintro ⟨_, hc⟩
          rw [Nat.mod_eq_of_lt hmid] at hc
          omega)
      rw [hskip]
      obtain ⟨s', tr', ci, heq, h1, h2, h3, h4⟩ :=
        ih (gradStep cfg mdl s).1 (tr ++ (gradStep cfg mdl s).2 ++ []) (by omega) (by omega)
      exact ⟨s', tr', ci, heq, h1, by rw [h2, hfiles1], h3, h4⟩

/-- Claim C2 is contradicted by the code: `Trainer.train` run for exactly
`save_and_sample_every` steps does reach step `save_and_sample_every` and
fire the periodic trigger, but then crashes evaluating
`self.ema.ema_model.sample` (line 459) — `Trainer.__init__` never assigns
`self.ema` — so the run aborts with an `AttributeError` after computing
milestone 1, and no sample grid and no checkpoint file are ever written. -/
theorem claim_C2_code_bug {μ ω : Type} (cfg : TrainerCfg) (mdl : TrainerModel μ ω)
    (m0 : μ) (o0 : ω)
    (hE : 1 ≤ cfg.save_and_sample_every)
    (hT : cfg.train_num_steps = cfg.save_and_sample_every) :
    ∃ s' tr' ci, Trainer_train cfg mdl (initState m0 o0) = RunResult.crashed s' tr' ci
      ∧ s'.step = cfg.save_and_sample_every
      ∧ (∀ kk, s'.files kk = none)
      ∧ s'.modelEval = true
      ∧ ci.milestone = 1 := by
  obtain ⟨s', tr', ci, heq, h1, h2, h3, h4⟩ :=
    trainGo_crash cfg mdl hE hT cfg.train_num_steps (initState m0 o0) []
      (by simp [initState]) (by omega)
  refine ⟨s', tr', ci, ?_, h1, ?_, h3, h4⟩
  · rw [Trainer_train]
    simpa [initState] using heq
  · intro kk
    rw [h2]
    rfl

/-- Concrete configuration for the C2 witness: two training steps with the
sampling interval also two. -/
def claimC2cfg : TrainerCfg :=
  { train_batch_size := 16, gradient_accumulate_every := 1, train_num_steps := 2,
    save_and_sample_every := 2, num_samples := 25, max_grad_norm := 1,
    calculate_fid := true, save_best_and_latest_only := false }

/-- Concrete collaborators for the C2 witness. -/
def claimC2mdl : TrainerModel Unit Unit :=
  { lossOf := fun _ => 1, gradOf := fun _ => 1,
    optUpdate := fun _ _ => (), optStateUpd := fun _ _ => () }

/-- Witness for C2's theorem: its hypotheses hold at the concrete
configuration and the crash conclusion follows by the theorem. -/
theorem claim_C2_code_bug_witness :
    1 ≤ claimC2cfg.save_and_sample_every
    ∧ claimC2cfg.train_num_steps = claimC2cfg.save_and_sample_every
    ∧ (∃ s' tr' ci,
        Trainer_train claimC2cfg claimC2mdl (initState () ()) = RunResult.crashed s' tr' ci
        ∧ s'.step = claimC2cfg.save_and_sample_every
        ∧ (∀ kk, s'.files kk = none)
        ∧ s'.modelEval = true
        ∧ ci.milestone = 1) :=
  ⟨by decide, rfl, claim_C2_code_bug claimC2cfg claimC2mdl () () (by decide) rfl⟩

/-! ## Claim C6: `DIPTrainer.train` step semantics -/

/-- One DIP loop iteration advances the counter by one, applies one
optimizer update to the parameters, and leaves the fixed input unchanged
(the branches only write image/checkpoint files). -/
lemma dipIter_fields {α ι : Type} (M : DIPModel α ι) (pe se : ℕ) (st : DIPState α ι) :
    (dipIter M pe se st).step = st.step + 1
    ∧ (dipIter M pe se st).params = M.stepFn st.params
    ∧ (dipIter M pe se st).model_input = st.model_input := by
  unfold dipIter DIPTrainer_save
  dsimp only
  split <;> split <;> exact ⟨rfl, rfl, rfl⟩

/-- Closed form of the `while self.step < train_num_steps` loop of
`DIPTrainer.train` on the step counter, parameters and fixed input, for the
exact fuel `n - step`. -/
lemma dipGo_spec {α ι : Type} (M : DIPModel α ι) (n pe se : ℕ) :
    ∀ (f : ℕ) (st : DIPState α ι), f = n - st.step →
      (dipGo M n pe se f st).step = max st.step n
      ∧ (dipGo M n pe se f st).params = M.stepFn^[n - st.step] st.params
      ∧ (dipGo M n pe se f st).model_input = st.model_input := by
  intro f
  induction f with
  | zero =>
    intro st hf
    have hle : n ≤ st.step := by omega
    rw [show n - st.step = 0 by omega]
    exact ⟨by simpa [dipGo] using (Nat.max_eq_left hle).symm, rfl, rfl⟩
  | succ f ih =>
    intro st hf
    have hlt : st.step < n := by omega
    obtain ⟨h1, h2, h3⟩ := dipIter_fields M pe se st
    have hf' : f = n - (dipIter M pe se st).step := by omega
    obtain ⟨g1, g2, g3⟩ := ih (dipIter M pe se st) hf'
    refine ⟨?_, ?_, ?_⟩
    · rw [dipGo, if_pos hlt, g1, h1]
      omega
    · rw [dipGo, if_pos hlt, g2, h2, h1]
      rw [show n - st.step = (n - (st.step + 1)) + 1 by omega]
      rw [Function.iterate_succ_apply]
    · rw [dipGo, if_pos hlt, g3, h3]

/-- Claim C6 (amended): `DIPTrainer.train(n, ...)` runs the loop body
(forward on the fixed input, MSE against the target, backward, one
optimizer step, counter `+1`) until the step counter reaches `n` — that is,
`max 0 (n - currentStep)` iterations, not `n` iterations — leaving the
counter at `max currentStep n`, applying the optimizer update `n -
currentStep` times to the parameters, keeping the fixed input unchanged,
and returning nothing but the mutated state. -/
theorem claim_C6_amended {α ι : Type} (M : DIPModel α ι) (st : DIPState α ι)
    (n pe se : ℕ) :
    (DIPTrainer_train M st n pe se).step = max st.step n
    ∧ (DIPTrainer_train M st n pe se).params = M.stepFn^[n - st.step] st.params
    ∧ (DIPTrainer_train M st n pe se).model_input = st.model_input :=
  dipGo_spec M n pe se (n - st.step) st rfl

/-- The all-zero 1×1×1×1 tensor, a concrete stand-in for images. -/
def czero : Tensor := ⟨1, 1, 1, 1, fun _ _ _ _ => 0⟩

/-- Concrete DIP collaborators for the C6 counterexample: parameters are a
natural number that the optimizer step increments, so the parameter value
counts the optimizer steps taken. -/
def claimC6M : DIPModel ℕ Unit :=
  { modelFn := fun _ _ => czero, stepFn := fun p => p + 1, train_img := czero }

/-- Concrete DIP trainer state with current step counter 5. -/
def claimC6st : DIPState ℕ Unit :=
  { step := 5, params := 0, model_input := (), files := fun _ => none,
    images := fun _ => none }

/-- Counterexample to claim C6 as stated: with the current step counter at
5, `train(3)` runs zero iterations (the loop guard `step <
train_num_steps` is immediately false), leaving the counter at 5 and the
parameters untouched — not "the caller-specified number of steps n [= 3]
starting from the trainer's current step counter", which would end at 8
after 3 optimizer steps. -/
theorem claim_C6_counterexample :
    (DIPTrainer_train claimC6M claimC6st 3 10000 10000).step = 5
    ∧ (DIPTrainer_train claimC6M claimC6st 3 10000 10000).params = 0
    ∧ (5 : ℕ) ≠ 5 + 3 ∧ (0 : ℕ) ≠ 3 :=
  ⟨rfl, rfl, by decide, by decide⟩

/-! ## Tensor helper lemmas -/

/-- A tensor whose entries are all zero has global mean zero. -/
lemma gmean_of_zero_data (t : Tensor) (h0 : ∀ i j k l, t.data i j k l = 0) :
    t.gmean = 0 := by
  have hsum : t.sumAll id = 0 := by
    simp [Tensor.sumAll, h0]
  rw [Tensor.gmean, hsum, zero_div]

/-- A tensor whose entries are all zero has global standard deviation
zero. -/
lemma gstd_of_zero_data (t : Tensor) (h0 : ∀ i j k l, t.data i j k l = 0) :
    t.gstd = 0 := by
  have hmean := gmean_of_zero_data t h0
  have hsum : t.sumAll (fun v => (v - t.gmean) ^ 2) = 0 := by
    simp [Tensor.sumAll, h0, hmean]
  rw [Tensor.gstd, hsum, zero_div, Real.sqrt_zero]

/-! ## Claim C4: `generate_noise` composes global normalization -/

/-- Concrete 1×2×1×3 tensor with channel rows `(0, 1, 2)` and `(0, 2, 4)`;
on it, global and per-channel normalization differ. -/
def tpc : Tensor := ⟨1, 2, 1, 3, fun _ j _ l => ((l * (j + 1) : ℕ) : ℝ)⟩

/-- Claim C4: `DIPTrainer.generate_noise` returns
`normalize(predict() - train_img)`; the normalization subtracts the mean
and divides by the standard deviation both taken globally over the entire
tensor (every batch, channel and spatial position appears in one sum), and
this global normalization is not the per-channel one (they differ on a
concrete tensor). -/
theorem claim_C4 :
    (∀ (α ι : Type) (M : DIPModel α ι) (st : DIPState α ι),
      DIPTrainer_generate_noise M st
        = normalize_norm_dist (Tensor.sub (DIPTrainer_predict M st) M.train_img))
    ∧ (∀ (x : Tensor) (i j k l : ℕ),
        (normalize_norm_dist x).data i j k l
          = (x.data i j k l
              - (∑ p in Finset.range x.b, ∑ q in Finset.range x.c,
                  ∑ u in Finset.range x.h, ∑ v in Finset.range x.w, x.data p q u v)
                / ((x.b * x.c * x.h * x.w : ℕ) : ℝ))
            / Real.sqrt ((∑ p in Finset.range x.b, ∑ q in Finset.range x.c,
                ∑ u in Finset.range x.h, ∑ v in Finset.range x.w,
                  (x.data p q u v - x.gmean) ^ 2)
              / ((x.b * x.c * x.h * x.w - 1 : ℕ) : ℝ)))
    ∧ normalize_norm_dist tpc ≠ normalizePerChannelSpec tpc := by
  refine ⟨fun α ι M st => rfl, fun x i j k l => rfl, ?_⟩
  have hm : tpc.gmean = 3 / 2 := by
    simp [Tensor.gmean, Tensor.sumAll, Tensor.numel, tpc, Finset.sum_range_succ]
    norm_num
  have hvar : tpc.sumAll (fun v => (v - tpc.gmean) ^ 2) = 23 / 2 := by
    rw [hm]
    simp [Tensor.sumAll, tpc, Finset.sum_range_succ]
    norm_num
  have hstd : tpc.gstd = Real.sqrt (23 / 10) := by
    rw [Tensor.gstd, hvar]
    congr 1
    norm_num [Tensor.numel, tpc]
  have hpos : (0 : ℝ) < Real.sqrt (23 / 10) := Real.sqrt_pos.mpr (by norm_num)
  have hleft : (normalize_norm_dist tpc).data 0 0 0 1 = (1 - 3 / 2) / Real.sqrt (23 / 10) := by
    show (tpc.data 0 0 0 1 - tpc.gmean) / tpc.gstd = _
    rw [hm, hstd]
    norm_num [tpc]
  have hright : (normalizePerChannelSpec tpc).data 0 0 0 1 = 0 := by
    simp [normalizePerChannelSpec, tpc, Finset.sum_range_succ]
    norm_num
  intro h
  have hv : (normalize_norm_dist tpc).data 0 0 0 1
      = (normalizePerChannelSpec tpc).data 0 0 0 1 := by rw [h]
  rw [hleft, hright] at hv
  exact div_ne_zero (by norm_num) (ne_of_gt hpos) hv

/-! ## Claim C9: the collapsed-prior degenerate case is unguarded -/

/-- Claim C9: when the prior network's output equals the target image
exactly, the tensor passed to `normalize_norm_dist` has global standard
deviation zero, and `generate_noise` still divides by it unconditionally —
every output entry is `(entry - mean) / 0` — so the result degenerates (its
standard deviation is 0, not 1): the source has no guarded fallback. -/
theorem claim_C9 {α ι : Type} (M : DIPModel α ι) (st : DIPState α ι)
    (hcollapse : DIPTrainer_predict M st = M.train_img) :
    (Tensor.sub (DIPTrainer_predict M st) M.train_img).gstd = 0
    ∧ (∀ i j k l, (DIPTrainer_generate_noise M st).data i j k l
        = ((Tensor.sub (DIPTrainer_predict M st) M.train_img).data i j k l
            - (Tensor.sub (DIPTrainer_predict M st) M.train_img).gmean) / 0)
    ∧ (DIPTrainer_generate_noise M st).gstd = 0 := by
  have hzero : ∀ i j k l,
      (Tensor.sub (DIPTrainer_predict M st) M.train_img).data i j k l = 0 := by
    intro i j k l
    rw [hcollapse]
    simp [Tensor.sub]
  have hstd := gstd_of_zero_data _ hzero
  have hmean := gmean_of_zero_data _ hzero
  refine ⟨hstd, ?_, ?_⟩
  · intro i j k l
    show ((Tensor.sub (DIPTrainer_predict M st) M.train_img).data i j k l
        - (Tensor.sub (DIPTrainer_predict M st) M.train_img).gmean)
        / (Tensor.sub (DIPTrainer_predict M st) M.train_img).gstd = _
    rw [hstd]
  · refine gstd_of_zero_data _ ?_
    intro i j k l
    show ((Tensor.sub (DIPTrainer_predict M st) M.train_img).data i j k l
        - (Tensor.sub (DIPTrainer_predict M st) M.train_img).gmean)
        / (Tensor.sub (DIPTrainer_predict M st) M.train_img).gstd = 0
    rw [hzero, hmean, hstd]
    norm_num

/-- Concrete DIP collaborators for the C9 witness: the network output is
identically the target image. -/
def claimC9M : DIPModel Unit Unit :=
  { modelFn := fun _ _ => czero, stepFn := id, train_img := czero }

/-- Concrete DIP trainer state for the C9 witness. -/
def claimC9st : DIPState Unit Unit :=
  { step := 0, params := (), model_input := (), files := fun _ => none,
    images := fun _ => none }

/-- Witness for C9: the collapse hypothesis holds at the concrete state and
the degenerate conclusion follows by the theorem. -/
theorem claim_C9_witness :
    DIPTrainer_predict claimC9M claimC9st = claimC9M.train_img
    ∧ (Tensor.sub (DIPTrainer_predict claimC9M claimC9st) claimC9M.train_img).gstd = 0 :=
  ⟨rfl, (claim_C9 claimC9M claimC9st rfl).1⟩

/-! ## Claim C3: the total training loss decomposes as claimed -/

/-- Modelled from the spec: the standard diffusion term of the total loss —
the batch mean of the per-sample MSE between the model output and the
objective-selected target (noise / `x_start` / `v`), each sample weighted by
the loss weight at its timestep.  The noise resolution (explicit argument,
else prior-generated) and offset-noise handling mirror the claim's account
of the forward contract. -/
noncomputable def specDiffusionTerm (D : Diffusion) (x_start : Tensor) (t : ℕ → ℕ)
    (noiseArg : Option Tensor) (offsetArg : Option ℝ)
    (r : Tensor) (coin : Bool) (offR : Tensor) : ℝ :=
  let dip_out := D.dip_model (Tensor.expandB x_start.b r)
  let noise0 := noiseArg.getD (normalize_norm_dist (Tensor.sub dip_out x_start))
  let ons := offsetArg.getD D.offset_noise_strength
  let noise := if 0 < ons then Diffusion.addOffset noise0 ons offR else noise0
  let x := D.q_sample x_start t noise
  let x_self_cond := if D.self_condition && coin then some (D.pred_x_start_of x t) else none
  let model_out := D.model x t x_self_cond
  let target :=
    match D.objective with
    | Objective.pred_noise => noise
    | Objective.pred_x0 => x_start
    | Objective.pred_v => D.predict_v x_start t noise
  (∑ i in Finset.range x_start.b,
    Tensor.sampleMSE model_out target i * D.loss_weight (t i)) / (x_start.b : ℝ)

/-- Modelled from the spec: the auxiliary term — the MSE between the prior
network's raw output and the clean image, scaled by the final entry of the
per-timestep loss-weight schedule.  By its type it does not depend on the
optional explicit noise argument. -/
noncomputable def specAuxTerm (D : Diffusion) (x_start : Tensor) (r : Tensor) : ℝ :=
  Tensor.gMSE (D.dip_model (Tensor.expandB x_start.b r)) x_start
    * D.loss_weight (D.num_timesteps - 1)

/-- Claim C3: the total loss returned by `p_losses` equals the batch mean
of the per-timestep-weighted MSE between the model output and the
objective-selected target, plus the auxiliary term `MSE(prior raw output,
clean image) * loss_weight[-1]`; the auxiliary term is included whether or
not an explicit noise tensor is supplied (it is the same for any two noise
arguments). -/
theorem claim_C3 (D : Diffusion) (x_start : Tensor) (t : ℕ → ℕ)
    (noiseArg : Option Tensor) (offsetArg : Option ℝ)
    (r : Tensor) (coin : Bool) (offR : Tensor) :
    Diffusion.p_losses D x_start t noiseArg offsetArg r coin offR
      = specDiffusionTerm D x_start t noiseArg offsetArg r coin offR
        + specAuxTerm D x_start r
    ∧ (∀ n1 n2 : Option Tensor,
        Diffusion.p_losses D x_start t n1 offsetArg r coin offR
            - specDiffusionTerm D x_start t n1 offsetArg r coin offR
          = Diffusion.p_losses D x_start t n2 offsetArg r coin offR
            - specDiffusionTerm D x_start t n2 offsetArg r coin offR) := by
  have key : ∀ nA : Option Tensor,
      Diffusion.p_losses D x_start t nA offsetArg r coin offR
        = specDiffusionTerm D x_start t nA offsetArg r coin offR
          + specAuxTerm D x_start r := fun _ => rfl
  refine ⟨key noiseArg, fun n1 n2 => ?_⟩
  rw [key n1, key n2]
  ring

/-! ## Claim C1: sampling initialization uses the retained prior network -/

/-- The image list accumulated by the ancestral loop only grows at the
tail, so its head stays the initial image. -/
lemma pSampleAux_head (D : Diffusion) :
    ∀ (ts : List ℕ) (img : Tensor) (xs : Option Tensor) (a : Tensor) (rest : List Tensor),
      ((Diffusion.pSampleAux D ts img xs (a :: rest)).2).head? = some a := by
  intro ts
  induction ts with
  | nil =>
    intro img xs a rest
    rfl
  | cons t ts ih =>
    intro img xs a rest
    simp only [Diffusion.pSampleAux, List.cons_append]
    exact ih _ _ a _

/-- The image list accumulated by the DDIM loop only grows at the tail, so
its head stays the initial image. -/
lemma ddimAux_head (D : Diffusion) (pr : ℕ → Tensor) :
    ∀ (tp : List (ℤ × ℤ)) (idx : ℕ) (img : Tensor) (xs : Option Tensor)
      (a : Tensor) (rest : List Tensor),
      ((Diffusion.ddimAux D pr tp idx img xs (a :: rest)).2).head? = some a := by
  intro tp
  induction tp with
  | nil =>
    intro idx img xs a rest
    rfl
  | cons p tp ih =>
    intro idx img xs a rest
    obtain ⟨time, time_next⟩ := p
    simp only [Diffusion.ddimAux, List.cons_append]
    split
    · exact ih _ _ _ a _
    · exact ih _ _ _ a _

/-- Claim C1 (amended): in both `p_sample_loop` and `ddim_sample`, the
initial reverse-process image `x_T` is the zero-mean/unit-variance
normalization of a single forward pass of the diffusion object's retained
`dip_model` (the instance stored at construction, shared with loss
computation — not a freshly constructed network) on the freshly drawn
random input `r` of the target spatial shape, expanded to the batch. -/
theorem claim_C1_amended (D : Diffusion) (shape : ℕ × ℕ × ℕ × ℕ) (r : Tensor)
    (pr : ℕ → Tensor) :
    (Diffusion.p_sample_loop D shape r true).head?
      = some (D.unnormalize (normalize_norm_dist (D.dip_model (Tensor.expandB shape.1 r))))
    ∧ (Diffusion.ddim_sample D shape r pr true).head?
      = some (D.unnormalize (normalize_norm_dist (D.dip_model (Tensor.expandB shape.1 r)))) := by
  constructor
  · have h := pSampleAux_head D ((List.range D.num_timesteps).reverse)
      (normalize_norm_dist (D.dip_model (Tensor.expandB shape.1 r))) none
      (normalize_norm_dist (D.dip_model (Tensor.expandB shape.1 r))) []
    simp only [Diffusion.p_sample_loop, if_true]
    rw [List.head?_map, h]
    rfl
  · have h := ddimAux_head D pr
      (Diffusion.ddimTimePairs D.num_timesteps D.sampling_timesteps) 0
      (normalize_norm_dist (D.dip_model (Tensor.expandB shape.1 r))) none
      (normalize_norm_dist (D.dip_model (Tensor.expandB shape.1 r))) []
    simp only [Diffusion.ddim_sample, if_true]
    rw [List.head?_map, h]
    rfl

/-- Concrete 1×1×1×3 tensor with entries `(0, 1, 2)`. -/
noncomputable def tA : Tensor := ⟨1, 1, 1, 3, fun _ _ _ l => (l : ℝ)⟩

/-- Concrete diffusion state for the C1 counterexample: zero reverse
timesteps (so sampling returns the initial image directly), identity
`unnormalize`, and a retained `dip_model` that outputs `tA`. -/
noncomputable def claimC1D : Diffusion :=
  { num_timesteps := 0, sampling_timesteps := 0, objective := Objective.pred_noise,
    self_condition := false, offset_noise_strength := 0, ddim_sampling_eta := 0,
    loss_weight := fun _ => 0, alphas_cumprod := fun _ => 0,
    dip_model := fun _ => tA, dip_input_depth := 3,
    model := fun x _ _ => x, q_sample := fun x _ _ => x, predict_v := fun x _ _ => x,
    pred_x_start_of := fun x _ => x, p_sample := fun x _ _ => (x, x),
    model_predictions := fun x _ _ => (x, x), unnormalize := id }

/-- Counterexample to claim C1 as stated: the claim says the prior network
used at sampling time is freshly constructed for the call (in particular
not the retained instance), which would make the sampler's output a
function of the call's own random draws only.  But two diffusion states
that differ only in their stored `dip_model` — same fresh random input,
same everything else — produce different sampling outputs, so the sampler
reads the retained instance. -/
theorem claim_C1_counterexample :
    Diffusion.p_sample_loop claimC1D (1, 1, 1, 3) czero false
      ≠ Diffusion.p_sample_loop { claimC1D with dip_model := fun _ => czero }
          (1, 1, 1, 3) czero false := by
  have hm : tA.gmean = 1 := by
    simp [Tensor.gmean, Tensor.sumAll, Tensor.numel, tA, Finset.sum_range_succ]
    norm_num
  have hvar : tA.sumAll (fun v => (v - tA.gmean) ^ 2) = 2 := by
    rw [hm]
    simp [Tensor.sumAll, tA, Finset.sum_range_succ]
    norm_num
  have hstd : tA.gstd = 1 := by
    rw [Tensor.gstd, hvar]
    rw [show (2 : ℝ) / ((tA.numel - 1 : ℕ) : ℝ) = 1 by norm_num [Tensor.numel, tA]]
    exact Real.sqrt_one
  have hA : (normalize_norm_dist tA).data 0 0 0 0 = -1 := by
    show (tA.data 0 0 0 0 - tA.gmean) / tA.gstd = -1
    rw [hm, hstd]
    norm_num [tA]
  have hZ : (normalize_norm_dist czero).data 0 0 0 0 = 0 := by
    show (czero.data 0 0 0 0 - czero.gmean) / czero.gstd = 0
    rw [gmean_of_zero_data czero (fun _ _ _ _ => rfl),
      gstd_of_zero_data czero (fun _ _ _ _ => rfl)]
    norm_num [czero]
  have hL : Diffusion.p_sample_loop claimC1D (1, 1, 1, 3) czero false
      = [normalize_norm_dist tA] := rfl
  have hR : Diffusion.p_sample_loop { claimC1D with dip_model := fun _ => czero }
      (1, 1, 1, 3) czero false = [normalize_norm_dist czero] := rfl
  intro h
  rw [hL, hR] at h
  have hhead : normalize_norm_dist tA = normalize_norm_dist czero := by
    simpa using h
  have hdata := congrArg (fun tt => Tensor.data tt 0 0 0 0) hhead
  simp only [hA, hZ] at hdata
  norm_num at hdata

end DDPMDIP
